import Mathlib

/-!
Verification of the `ultralytics/yolo-ios-app` utility scripts.

The development shallowly embeds the two Python modules of the repository:

* `scripts/export-models.py` — the model export driver.  Filesystem paths are
  modelled as lists of components, the filesystem as a partial map from a
  directory path to the opaque content tree (a blob id) rooted there, and the
  external world (the `ultralytics` library and the OS calls, each of which can
  raise) as an environment of `Except`-valued oracles.  Pure path computations
  (`pathlib`'s `name`, `parents`, `with_suffix`, `relative_to`, `/`) are
  embedded concretely, following `pathlib`'s documented semantics.
* `template/module1.py` — `add_numbers`, `some_function_with_a_long_name` and
  `get_git_dir`, embedded directly.
-/

namespace YoloRepo

/-- A filesystem path, modelled as its list of components (the `parts` of a
`pathlib.Path`, without the anchor). -/
abbrev Path : Type := List String

/-- The final component of a path (`pathlib.Path.name`); the empty string for
the root path, as in `pathlib`. -/
def srcName (p : Path) : String := p.getLast?.getD ""

/-! ## template/module1.py -/

/-- Embeds `add_numbers` from `template/module1.py`: returns the sum of its two
arguments. -/
def add_numbers (a b : Int) : Int := a + b

/-- Embeds `some_function_with_a_long_name` from `template/module1.py`: binds
two fixed strings, concatenates them and returns the result, never touching its
four arguments (which carry arbitrary types, as the Python function is
untyped). -/
def some_function_with_a_long_name {α β γ δ : Type}
    (argument1 : α) (argument2 : β) (another_argument : γ)
    (yet_another_argument : δ) : String :=
  let x := "string1"
  let y := "string2"
  let z := x ++ y
  z

/-- Auxiliary for `parents`: for a fuel value `k`, the list
`[p.take (k-1), p.take (k-2), ..., p.take 0]`. -/
def parentsAux (p : Path) : Nat → List Path
  | 0 => []
  | k + 1 => p.take k :: parentsAux p k

/-- Embeds `pathlib.Path.parents`: the strict ancestors of `p`, nearest first,
ending with the empty path (the anchor, `/` or `.`). -/
def parents (p : Path) : List Path := parentsAux p p.length

/-- Embeds `get_git_dir` from `template/module1.py`.  `isDir q` models the
query `Path(q).is_dir()` against the ambient filesystem; `file` is the location
of the module file (`Path(__file__)`).  The Python loop returns the first
parent `d` with `(d / ".git").is_dir()` and falls off the loop (returning
`None`) otherwise. -/
def get_git_dir (isDir : Path → Bool) (file : Path) : Option Path :=
  (parents file).find? (fun d => isDir (d ++ [".git"]))

/-! ## scripts/export-models.py — pure path computations -/

/-- Embeds the `SIZES` list. -/
def SIZES : List String := ["n", "s", "m", "l", "x"]

/-- Embeds the `TASKS` dict, as an association list in insertion order (Python
dicts iterate in insertion order). -/
def TASKS : List (String × String) :=
  [("", "Detect"), ("-cls", "Classify"), ("-seg", "Segment"),
   ("-pose", "Pose"), ("-obb", "OBB")]

/-- Embeds the f-string building the model identifier: the literal `yolo26`,
then the size letter, then the task suffix, then the literal `.pt`. -/
def modelName (size suffix : String) : String :=
  "yolo26" ++ size ++ suffix ++ ".pt"

/-- Embeds `APP_MODELS = ROOT / "YOLOiOSApp" / "Models"`; `root` stands for
`ROOT`, which the script derives from the location of its own file. -/
def APP_MODELS (root : Path) : Path := root ++ ["YOLOiOSApp", "Models"]

/-- Embeds line 45, `dst = APP_MODELS / task_dir / src.name`. -/
def dstFor (root : Path) (taskDir : String) (src : Path) : Path :=
  APP_MODELS root ++ [taskDir, srcName src]

/-- The iteration space of the two nested `for` loops of `main`: every
`(size, task-suffix, task-directory)` triple, sizes outermost, the `TASKS`
entries in insertion order. -/
def mainIterations : List (String × String × String) :=
  SIZES.flatMap (fun size => TASKS.map (fun st => (size, st.1, st.2)))

/-- Index (from the head) of the last occurrence of a dot in a character list,
if any. -/
def lastDotIdx : List Char → Option Nat
  | [] => none
  | c :: rest =>
    match lastDotIdx rest with
    | some j => some (j + 1)
    | none => if c = '.' then some 0 else none

/-- Length of the `pathlib` suffix of a file name: `pathlib.Path.suffix` is
the part of the name from its last dot, provided that dot is neither the first
nor the last character; otherwise the suffix is empty. -/
def pySuffixLen (name : String) : Nat :=
  match lastDotIdx name.data with
  | some i => if 0 < i ∧ i + 1 < name.data.length then name.data.length - i else 0
  | none => 0

/-- Embeds `pathlib.Path.with_suffix` acting on a file name: drop the current
suffix (if any) and append the new one. -/
def withSuffixName (name suffix : String) : String :=
  String.mk (name.data.take (name.data.length - pySuffixLen name)) ++ suffix

/-- Embeds line 54, `zip_path = src.with_suffix(".mlpackage.zip")`. -/
def zipPathOf (src : Path) : Path :=
  src.dropLast ++ [withSuffixName (srcName src) ".mlpackage.zip"]

/-- Embeds `pathlib.Path.relative_to`: strips `base` from the front of the
path; `none` models the `ValueError` raised when `base` is not an ancestor. -/
def relativeTo : Path → Path → Option Path
  | p, [] => some p
  | [], _ :: _ => none
  | a :: p, b :: base => if a = b then relativeTo p base else none

/-- Embeds line 57, the archive name given to one file of the artifact in the
zip loop: `file.relative_to(src.parent)`. -/
def zipEntryName (src file : Path) : Option Path := relativeTo file src.dropLast

/-! ## scripts/export-models.py — filesystem and driver -/

/-- A filesystem fragment: maps a directory path to the opaque content tree
(a blob id) rooted there.  Artifacts are directory packages that the script
copies and archives without inspection, so whole trees are opaque blobs. -/
abbrev FS : Type := Path → Option Nat

/-- Embeds `shutil.rmtree(p)` on the blob-granular filesystem. -/
def fsRmtree (fs : FS) (p : Path) : FS := fun q => if q = p then none else fs q

/-- Embeds `shutil.copytree(src, dst)` on the blob-granular filesystem. -/
def fsCopytree (fs : FS) (src dst : Path) : FS :=
  fun q => if q = dst then fs src else fs q

/-- Embeds lines 48-51 of `main`:
`if dst.exists(): shutil.rmtree(dst)` followed by `shutil.copytree(src, dst)`,
as one pure transformation of the filesystem. -/
def copyStep (fs : FS) (src dst : Path) : FS :=
  let fs1 := if (fs dst).isSome then fsRmtree fs dst else fs
  fsCopytree fs1 src dst

/-- The object returned by `YOLO(model_name)`. -/
structure YoloModel where
  name : String

/-- The external world seen by one iteration of `main`: the `ultralytics`
library calls and the OS filesystem calls, each of which may raise (modelled by
`Except.error`).  `exportCoreML` writes the artifact somewhere on disk and
returns its path, `mkdirParents` models `mkdir(parents=True, exist_ok=True)`,
`rmtreeOp`, `copytreeOp` and `zipCreate` model the `shutil` / `zipfile` calls
together with the I/O errors they can raise. -/
structure Env where
  yolo : String → Except String YoloModel
  exportCoreML : YoloModel → FS → Except String (Path × FS)
  mkdirParents : Path → FS → Except String FS
  rmtreeOp : Path → FS → Except String FS
  copytreeOp : Path → Path → FS → Except String FS
  zipCreate : Path → Path → FS → Except String FS

/-- One iteration of the body of `main` (lines 36-58), in source order:
construct the model name, load the model, export it, compute the destination,
make the parent directories, remove a pre-existing destination, copy the
artifact, and zip it next to the source.  There is no exception handler: every
`Except.error` of an oracle propagates. -/
def runIter (env : Env) (root : Path) (fs : FS)
    (it : String × String × String) : Except String FS := do
  let mname := modelName it.1 it.2.1
  let model ← env.yolo mname
  let res ← env.exportCoreML model fs
  let src := res.1
  let fs1 := res.2
  let dst := dstFor root it.2.2 src
  let fs2 ← env.mkdirParents dst.dropLast fs1
  let fs3 ← if (fs2 dst).isSome then env.rmtreeOp dst fs2 else pure fs2
  let fs4 ← env.copytreeOp src dst fs3
  let fs5 ← env.zipCreate (zipPathOf src) src fs4
  pure fs5

/-- Sequential execution of the loop body over a list of iterations, stopping
at the first error, as Python's uncaught exceptions do. -/
def runList (env : Env) (root : Path) : FS → List (String × String × String) →
    Except String FS
  | fs, [] => pure fs
  | fs, it :: rest => do
    let fs1 ← runIter env root fs it
    runList env root fs1 rest

/-- Embeds `main`: run the loop body over the full iteration space. -/
def runMain (env : Env) (root : Path) (fs0 : FS) : Except String FS :=
  runList env root fs0 mainIterations

/-- A concrete environment whose model loader raises on every name, every
other oracle succeeding without touching the filesystem; a fixture for
exercising the driver theorems on concrete runs. -/
def failEnv : Env where
  yolo := fun _ => Except.error "model load failed"
  exportCoreML := fun m fs => Except.ok ([m.name], fs)
  mkdirParents := fun _ fs => Except.ok fs
  rmtreeOp := fun _ fs => Except.ok fs
  copytreeOp := fun _ _ fs => Except.ok fs
  zipCreate := fun _ _ fs => Except.ok fs

/-- The empty filesystem fixture. -/
def emptyFS : FS := fun _ => none

/-! ## Theorems -/

/-- C6: for all integers `a` and `b`, `add_numbers a b = a + b`, and the three
literal scenarios of `tests/test_module1.py` hold:
`add_numbers 2 3 = 5`, `add_numbers (-1) 1 = 0`, `add_numbers (-1) (-1) = -2`. -/
theorem addition_matches_spec :
    (∀ a b : Int, add_numbers a b = a + b) ∧
    add_numbers 2 3 = 5 ∧ add_numbers (-1) 1 = 0 ∧ add_numbers (-1) (-1) = -2 :=
  ⟨fun _ _ => rfl, by decide, by decide, by decide⟩

/-- C7: `add_numbers` is commutative and associative over the integers. -/
theorem addition_comm_assoc :
    ∀ a b c : Int,
      add_numbers a b = add_numbers b a ∧
      add_numbers (add_numbers a b) c = add_numbers a (add_numbers b c) :=
  fun a b c => ⟨Int.add_comm a b, Int.add_assoc a b c⟩

/-- C9: `some_function_with_a_long_name` returns the constant string
`string1string2` whatever its four arguments are, so any two calls — at any
argument types and values — return equal results: the output does not depend on
any input. -/
theorem long_name_function_constant :
    (∀ (α β γ δ : Type) (a : α) (b : β) (c : γ) (d : δ),
      some_function_with_a_long_name a b c d = "string1string2") ∧
    (∀ (α β γ δ α' β' γ' δ' : Type) (a : α) (b : β) (c : γ) (d : δ)
      (a' : α') (b' : β') (c' : γ') (d' : δ'),
      some_function_with_a_long_name a b c d =
        some_function_with_a_long_name a' b' c' d') :=
  ⟨fun _ _ _ _ _ _ _ _ => rfl,
   fun _ _ _ _ _ _ _ _ _ _ _ _ _ _ _ _ => rfl⟩

/-- C1: the export driver iterates exactly once per pair of the Cartesian
product of the five sizes and the five task suffixes — the 25 triples below, in
loop order — and the model identifier of each iteration is the plain
concatenation `yolo26` + size + suffix + `.pt`, with no validation: even a
combination no library accepts (size `q`, suffix `-bogus`) is assembled the
same way. -/
theorem export_driver_cartesian_product :
    mainIterations.length = 25 ∧
    mainIterations =
      [("n", "", "Detect"), ("n", "-cls", "Classify"), ("n", "-seg", "Segment"),
       ("n", "-pose", "Pose"), ("n", "-obb", "OBB"),
       ("s", "", "Detect"), ("s", "-cls", "Classify"), ("s", "-seg", "Segment"),
       ("s", "-pose", "Pose"), ("s", "-obb", "OBB"),
       ("m", "", "Detect"), ("m", "-cls", "Classify"), ("m", "-seg", "Segment"),
       ("m", "-pose", "Pose"), ("m", "-obb", "OBB"),
       ("l", "", "Detect"), ("l", "-cls", "Classify"), ("l", "-seg", "Segment"),
       ("l", "-pose", "Pose"), ("l", "-obb", "OBB"),
       ("x", "", "Detect"), ("x", "-cls", "Classify"), ("x", "-seg", "Segment"),
       ("x", "-pose", "Pose"), ("x", "-obb", "OBB")] ∧
    mainIterations.map (fun it => modelName it.1 it.2.1) =
      ["yolo26n.pt", "yolo26n-cls.pt", "yolo26n-seg.pt", "yolo26n-pose.pt",
       "yolo26n-obb.pt",
       "yolo26s.pt", "yolo26s-cls.pt", "yolo26s-seg.pt", "yolo26s-pose.pt",
       "yolo26s-obb.pt",
       "yolo26m.pt", "yolo26m-cls.pt", "yolo26m-seg.pt", "yolo26m-pose.pt",
       "yolo26m-obb.pt",
       "yolo26l.pt", "yolo26l-cls.pt", "yolo26l-seg.pt", "yolo26l-pose.pt",
       "yolo26l-obb.pt",
       "yolo26x.pt", "yolo26x-cls.pt", "yolo26x-seg.pt", "yolo26x-pose.pt",
       "yolo26x-obb.pt"] ∧
    (∀ size suffix : String, modelName size suffix = "yolo26" ++ size ++ suffix ++ ".pt") ∧
    modelName "q" "-bogus" = "yolo26q-bogus.pt" :=
  ⟨rfl, rfl, rfl, fun _ _ => rfl, rfl⟩

/-- C2: the destination path computed at line 45 is a pure function of the
task directory and the artifact's own final name: two source paths with the
same final name map to the same destination, and the destination is the fixed
models root extended with the task directory and the artifact name. -/
theorem destination_path_pure_function (root : Path) (taskDir : String)
    (s1 s2 : Path) (h : srcName s1 = srcName s2) :
    dstFor root taskDir s1 = dstFor root taskDir s2 ∧
    dstFor root taskDir s1 = root ++ ["YOLOiOSApp", "Models", taskDir, srcName s1] :=
  ⟨by simp [dstFor, h], by simp [dstFor, APP_MODELS]⟩

/-- Witness for C2 at a concrete input: the artifact `yolo26n.mlpackage`
produced under two different working directories lands at the same destination
`ROOT/YOLOiOSApp/Models/Detect/yolo26n.mlpackage`. -/
theorem destination_path_pure_function_witness :
    dstFor ["repo"] "Detect" ["runs", "yolo26n.mlpackage"] =
      dstFor ["repo"] "Detect" ["elsewhere", "deep", "yolo26n.mlpackage"] ∧
    dstFor ["repo"] "Detect" ["runs", "yolo26n.mlpackage"] =
      ["repo"] ++ ["YOLOiOSApp", "Models", "Detect", "yolo26n.mlpackage"] :=
  destination_path_pure_function ["repo"] "Detect"
    ["runs", "yolo26n.mlpackage"] ["elsewhere", "deep", "yolo26n.mlpackage"]
    (by decide)

/-- C3: whatever the prior filesystem state, after the copy step of lines
48-51 the destination path holds exactly the exported artifact (the content at
the source path), any prior content there having been removed, and every other
path is untouched.  The hypothesis `src ≠ dst` records that the source artifact
(produced by the export in the library's output area) is not the destination
itself. -/
theorem copy_overwrites_destination (fs : FS) (src dst : Path) (hne : src ≠ dst) :
    copyStep fs src dst dst = fs src ∧
    ∀ p : Path, p ≠ dst → copyStep fs src dst p = fs p := by
  constructor
  · simp only [copyStep, fsCopytree, if_pos rfl]
    by_cases h : (fs dst).isSome
    · simp [h, fsRmtree, hne]
    · simp [h]
  · intro p hp
    simp only [copyStep, fsCopytree, if_neg hp]
    by_cases h : (fs dst).isSome
    · simp [h, fsRmtree, hp]
    · simp [h]

/-- Witness for C3 at a concrete input: a filesystem holding blob 7 at the
destination and blob 3 at the source; after the copy the destination holds
blob 3, and an unrelated path keeps its blob 9. -/
theorem copy_overwrites_destination_witness :
    (["out", "a.mlpackage"] : Path) ≠ ["app", "Models", "Detect", "a.mlpackage"] ∧
    (["other"] : Path) ≠ ["app", "Models", "Detect", "a.mlpackage"] ∧
    copyStep
      (fun q => if q = ["app", "Models", "Detect", "a.mlpackage"] then some 7
        else if q = ["out", "a.mlpackage"] then some 3
        else if q = ["other"] then some 9 else none)
      ["out", "a.mlpackage"] ["app", "Models", "Detect", "a.mlpackage"]
      ["app", "Models", "Detect", "a.mlpackage"] = some 3 ∧
    copyStep
      (fun q => if q = ["app", "Models", "Detect", "a.mlpackage"] then some 7
        else if q = ["out", "a.mlpackage"] then some 3
        else if q = ["other"] then some 9 else none)
      ["out", "a.mlpackage"] ["app", "Models", "Detect", "a.mlpackage"]
      ["other"] = some 9 := by
  refine ⟨by decide, by decide, ?_, ?_⟩
  · exact (copy_overwrites_destination _ _ _ (by decide)).1.trans (by decide)
  · exact ((copy_overwrites_destination _ _ _ (by decide)).2 _ (by decide)).trans (by decide)

/-- Helper: stripping `base` from `base ++ r` leaves `r`. -/
theorem relativeTo_append (base r : Path) : relativeTo (base ++ r) base = some r := by
  induction base with
  | nil => simp [relativeTo]
  | cons b bs ih => simp [relativeTo, ih]

/-- C5: the zip archive of line 54 is written next to the source artifact: its
path has the same parent as the source, so whenever the source's directory is
outside the destination tree rooted at `APP_MODELS`, the archive's directory
is too; and on an actual artifact name the `pathlib` suffix is replaced, so
`runs/yolo26n.mlpackage` is archived as `runs/yolo26n.mlpackage.zip`. -/
theorem zip_next_to_artifact (src : Path) :
    (zipPathOf src).dropLast = src.dropLast ∧
    (∀ root : Path, relativeTo src.dropLast (APP_MODELS root) = none →
      relativeTo ((zipPathOf src).dropLast) (APP_MODELS root) = none) ∧
    zipPathOf ["runs", "yolo26n.mlpackage"] = ["runs", "yolo26n.mlpackage.zip"] := by
  have h1 : (zipPathOf src).dropLast = src.dropLast := by
    simp [zipPathOf]
  exact ⟨h1, fun root h => by rw [h1]; exact h, by decide⟩

/-- Witness for C5 at a concrete input: the artifact `runs/yolo26n.mlpackage`
is outside the destination tree of root `repo`, and so is its zip archive. -/
theorem zip_next_to_artifact_witness :
    relativeTo (["runs", "yolo26n.mlpackage"] : Path).dropLast (APP_MODELS ["repo"]) = none ∧
    relativeTo ((zipPathOf ["runs", "yolo26n.mlpackage"]).dropLast) (APP_MODELS ["repo"]) = none :=
  ⟨by decide,
   (zip_next_to_artifact ["runs", "yolo26n.mlpackage"]).2.1 ["repo"] (by decide)⟩

/-- C10: every file the zip loop of lines 56-58 visits lies below the source
artifact, and its archive entry name — the file's path relative to the
artifact's parent — therefore starts with the artifact directory's own name:
the archive unpacks into a single top-level directory named after the
artifact. -/
theorem zip_entry_names_under_artifact (src file r : Path)
    (h0 : src ≠ []) (h : file = src ++ r) :
    ∃ entry : Path, zipEntryName src file = some entry ∧
      entry.head? = some (srcName src) := by
  obtain ⟨d, g, hdg⟩ : ∃ d g, src = d ++ [g] :=
    ⟨src.dropLast, src.getLast h0, (List.dropLast_concat_getLast h0).symm⟩
  subst hdg
  refine ⟨g :: r, ?_, ?_⟩
  · rw [zipEntryName, h, List.append_assoc]
    have hdl : (d ++ [g]).dropLast = d := List.dropLast_concat
    rw [hdl]
    exact relativeTo_append d ([g] ++ r)
  · simp [srcName]

/-- Witness for C10 at a concrete input: the entry recorded for the file
`yolo26n.mlpackage/Data/model.mil` starts with `yolo26n.mlpackage`. -/
theorem zip_entry_names_under_artifact_witness :
    (["yolo26n.mlpackage"] : Path) ≠ [] ∧
    (["yolo26n.mlpackage", "Data", "model.mil"] : Path) =
      ["yolo26n.mlpackage"] ++ ["Data", "model.mil"] ∧
    ∃ entry : Path,
      zipEntryName ["yolo26n.mlpackage"] ["yolo26n.mlpackage", "Data", "model.mil"] =
        some entry ∧
      entry.head? = some (srcName ["yolo26n.mlpackage"]) :=
  ⟨by decide, by decide,
   zip_entry_names_under_artifact ["yolo26n.mlpackage"]
     ["yolo26n.mlpackage", "Data", "model.mil"] ["Data", "model.mil"]
     (by decide) (by decide)⟩

/-- Helper for C4: if the loop body succeeds on a first block of iterations
and raises on the next iteration, the whole sequential run stops with exactly
that error, never reaching the remaining iterations. -/
theorem runList_append_error (env : Env) (root : Path) :
    ∀ (l1 : List (String × String × String)) (fs0 fsk : FS)
      (it : String × String × String)
      (l2 : List (String × String × String)) (e : String),
      runList env root fs0 l1 = Except.ok fsk →
      runIter env root fsk it = Except.error e →
      runList env root fs0 (l1 ++ it :: l2) = Except.error e := by
  intro l1
  induction l1 with
  | nil =>
    intro fs0 fsk it l2 e hok hfail
    have hfs : fs0 = fsk := by
      have : Except.ok (ε := String) fs0 = Except.ok fsk := hok
      exact Except.ok.inj this
    subst hfs
    show runIter env root fs0 it >>= (fun fs1 => runList env root fs1 l2) =
      Except.error e
    rw [hfail]
    rfl
  | cons a l1 ih =>
    intro fs0 fsk it l2 e hok hfail
    have hok' : runIter env root fs0 a >>= (fun fs1 => runList env root fs1 l1) =
        Except.ok fsk := hok
    cases hfa : runIter env root fs0 a with
    | error err =>
      rw [hfa] at hok'
      exact absurd hok' (by simp [Bind.bind, Except.bind])
    | ok fs1 =>
      rw [hfa] at hok'
      have hok1 : runList env root fs1 l1 = Except.ok fsk := hok'
      show runIter env root fs0 a >>=
        (fun s => runList env root s (l1 ++ it :: l2)) = Except.error e
      rw [hfa]
      show runList env root fs1 (l1 ++ it :: l2) = Except.error e
      exact ih fs1 fsk it l2 e hok1 hfail

/-- C4: any failure in any iteration of the driver — the model loader, the
export call, or any filesystem operation raising — aborts the whole run: if
the iterations before it succeeded and iteration `it` raises error `e`, then
`main` terminates with exactly that error; no later iteration runs, nothing is
retried and nothing is rolled back. -/
theorem failure_aborts_run (env : Env) (root : Path) (fs0 fsk : FS)
    (l1 l2 : List (String × String × String)) (it : String × String × String)
    (e : String)
    (hsplit : mainIterations = l1 ++ it :: l2)
    (hok : runList env root fs0 l1 = Except.ok fsk)
    (hfail : runIter env root fsk it = Except.error e) :
    runMain env root fs0 = Except.error e := by
  rw [runMain, hsplit]
  exact runList_append_error env root l1 fs0 fsk it l2 e hok hfail

/-- Witness for C4 at a concrete input: under `failEnv` the very first
iteration raises, and the whole run terminates with exactly that error. -/
theorem failure_aborts_run_witness :
    mainIterations = [] ++ ("n", "", "Detect") :: mainIterations.tail ∧
    runList failEnv [] emptyFS [] = Except.ok emptyFS ∧
    runIter failEnv [] emptyFS ("n", "", "Detect") = Except.error "model load failed" ∧
    runMain failEnv [] emptyFS = Except.error "model load failed" :=
  ⟨rfl, rfl, rfl,
   failure_aborts_run failEnv [] emptyFS emptyFS [] mainIterations.tail
     ("n", "", "Detect") "model load failed" rfl rfl rfl⟩

/-- Helper: `parentsAux p k` has length `k`. -/
theorem parentsAux_length (p : Path) : ∀ k, (parentsAux p k).length = k := by
  intro k
  induction k with
  | zero => rfl
  | succ k ih => simp [parentsAux, ih]

/-- Helper: the `i`-th entry of `parentsAux p k` is the first `k - 1 - i`
components of `p`. -/
theorem parentsAux_getElem? (p : Path) :
    ∀ k i, i < k → (parentsAux p k)[i]? = some (p.take (k - 1 - i)) := by
  intro k
  induction k with
  | zero => intro i h; exact absurd h (by omega)
  | succ k ih =>
    intro i h
    cases i with
    | zero => simp [parentsAux]
    | succ i =>
      have h' : i < k := by omega
      have harith : k + 1 - 1 - (i + 1) = k - 1 - i := by omega
      rw [harith]
      simpa [parentsAux] using ih i h'

/-- Helper: if `find?` returns `some a`, then `a` sits at some index, the
predicate holds at `a`, and the predicate fails at every earlier index. -/
theorem find?_first_index {α : Type} (p : α → Bool) :
    ∀ (l : List α) (a : α), l.find? p = some a →
      ∃ i : Nat, l[i]? = some a ∧ p a = true ∧
        ∀ j : Nat, j < i → ∀ b, l[j]? = some b → p b = false := by
  intro l
  induction l with
  | nil => intro a h; simp [List.find?] at h
  | cons x xs ih =>
    intro a h
    by_cases hx : p x
    · rw [List.find?_cons_of_pos _ hx] at h
      obtain rfl : x = a := by injection h
      exact ⟨0, by simp, hx, fun j hj => absurd hj (by omega)⟩
    · rw [List.find?_cons_of_neg _ hx] at h
      obtain ⟨i, hget, hpa, hfirst⟩ := ih a h
      refine ⟨i + 1, by simpa using hget, hpa, ?_⟩
      intro j hj b hb
      cases j with
      | zero =>
        have hxb : x = b := by simpa using hb
        subst hxb
        simpa using hx
      | succ j => exact hfirst j (by omega) b (by simpa using hb)

/-- C8: `get_git_dir` returns the nearest ancestor holding the `.git` marker,
walking upward from the module file's location.  Precisely: (i) a `some d`
result means the marker is a directory under `d` and `d` is the first entry of
`parents file` whose marker query succeeds; (ii) the result is `none` exactly
when no ancestor up to the filesystem root has the marker; (iii) every entry
of `parents file` is a strict ancestor of `file`; (iv) earlier entries of
`parents file` are strictly longer, so the first hit is the nearest
ancestor. -/
theorem git_root_lookup_nearest (isDir : Path → Bool) (file : Path) :
    (∀ d, get_git_dir isDir file = some d →
      isDir (d ++ [".git"]) = true ∧
      ∃ i : Nat, (parents file)[i]? = some d ∧
        ∀ j : Nat, j < i → ∀ d', (parents file)[j]? = some d' →
          isDir (d' ++ [".git"]) = false) ∧
    (get_git_dir isDir file = none ↔
      ∀ d ∈ parents file, isDir (d ++ [".git"]) = false) ∧
    (∀ d ∈ parents file, ∃ rest : Path, rest ≠ [] ∧ file = d ++ rest) ∧
    (∀ (i j : Nat) (di dj : Path), i < j → (parents file)[i]? = some di →
      (parents file)[j]? = some dj → dj.length < di.length) := by
  refine ⟨?_, ?_, ?_, ?_⟩
  · intro d h
    obtain ⟨i, hget, hpa, hfirst⟩ :=
      find?_first_index (fun d => isDir (d ++ [".git"])) (parents file) d h
    exact ⟨hpa, i, hget, hfirst⟩
  · rw [get_git_dir, List.find?_eq_none]
    constructor
    · intro h d hd
      simpa using h d hd
    · intro h d hd
      simp [h d hd]
  · intro d hd
    obtain ⟨i, hget⟩ := List.mem_iff_getElem?.mp hd
    have hi : i < (parents file).length := by
      obtain ⟨hlt, -⟩ := List.getElem?_eq_some_iff.mp hget
      exact hlt
    rw [parents, parentsAux_length] at hi
    have hchar := parentsAux_getElem? file file.length i hi
    rw [parents] at hget
    rw [hchar] at hget
    obtain rfl : file.take (file.length - 1 - i) = d := Option.some.inj hget
    refine ⟨file.drop (file.length - 1 - i), ?_, (List.take_append_drop _ _).symm⟩
    intro hnil
    have := List.drop_eq_nil_iff.mp hnil
    omega
  · intro i j di dj hij hgi hgj
    have hj : j < (parents file).length := by
      obtain ⟨hlt, -⟩ := List.getElem?_eq_some_iff.mp hgj
      exact hlt
    rw [parents, parentsAux_length] at hj
    have hi : i < file.length := by omega
    have hci := parentsAux_getElem? file file.length i hi
    have hcj := parentsAux_getElem? file file.length j hj
    rw [parents] at hgi hgj
    rw [hci] at hgi
    rw [hcj] at hgj
    obtain rfl : file.take (file.length - 1 - i) = di := Option.some.inj hgi
    obtain rfl : file.take (file.length - 1 - j) = dj := Option.some.inj hgj
    simp only [List.length_take]
    omega

/-- Witness for C8 at a concrete input: a filesystem where only
`repo/.git` is a directory, queried from `repo/proj/module1.py`; the lookup
skips the nearer marker-free parent `repo/proj` and returns `repo`, which does
hold the marker and sits at index 1 of the parents, index 0 failing the
query. -/
theorem git_root_lookup_nearest_witness :
    get_git_dir (fun q => q = ["repo", ".git"]) ["repo", "proj", "module1.py"] =
      some ["repo"] ∧
    (fun q : Path => decide (q = ["repo", ".git"])) (["repo"] ++ [".git"]) = true ∧
    (∃ i : Nat, (parents ["repo", "proj", "module1.py"])[i]? = some ["repo"] ∧
      ∀ j : Nat, j < i → ∀ d', (parents ["repo", "proj", "module1.py"])[j]? = some d' →
        (fun q : Path => decide (q = ["repo", ".git"])) (d' ++ [".git"]) = false) := by
  refine ⟨by decide, ?_, ?_⟩
  · exact ((git_root_lookup_nearest (fun q => decide (q = ["repo", ".git"]))
      ["repo", "proj", "module1.py"]).1 ["repo"] (by decide)).1
  · exact ((git_root_lookup_nearest (fun q => decide (q = ["repo", ".git"]))
      ["repo", "proj", "module1.py"]).1 ["repo"] (by decide)).2

end YoloRepo
